import Mathlib

/-!
# Verification of the `rest` HTTP exchange client

A shallow embedding in Lean 4 of the Go package `rest` (`src/rest.go`,
`src/http.go`): a minimal HTTP client built around one `exchange`
primitive plus verb conveniences (`Get`, `Head`, `Post`, `Put`, `Patch`,
`Delete`, `OptionsForAllow`) and JSON helpers (`EncodeJSON`,
`DecodeJSON`).

The platform HTTP stack (`net/http`) and the network are external
collaborators; they are modelled by an explicit `Transport` record of
oracles (request-construction outcome, `client.Do` outcome,
`ioutil.ReadAll` outcome), so every theorem quantifies over all possible
platform behaviours.  Go `nil` maps are modelled explicitly
(`HttpHeader.nil`) because the specification distinguishes nil from
empty header mappings.  Machine integers in this code never overflow in
ways the claims touch, so status codes are `Nat`.
-/

namespace Rest

/-- Go's `http.Header` (a `map[string][]string`), with explicit `nil`:
a Go map variable may be `nil`, which differs observably from an empty
map.  `make(http.Header)` is `HttpHeader.mk []`. -/
inductive HttpHeader where
  | nil : HttpHeader
  | mk (entries : List (String × List String)) : HttpHeader
deriving DecidableEq, Repr

/-- `http.Header.Get`: first value stored for the key, `""` when the
map is nil, the key is absent, or its value list is empty.  The Go keys
used by this repository (`Allow`, `Accept`, `Content-Type`,
`Cache-Control`) are already in canonical MIME form, so the
canonicalisation step of `textproto.MIMEHeader.Get` is the identity on
them and is not modelled. -/
def HttpHeader.get (h : HttpHeader) (key : String) : String :=
  match h with
  | .nil => ""
  | .mk entries =>
    match entries.lookup key with
    | some (v :: _) => v
    | some [] => ""
    | none => ""

/-- `http.Header.Add`: append `value` to the list stored under `key`
(for the canonical keys this repository uses).  Requests built by
`http.NewRequest` always carry a non-nil header map, so the nil case
(which would panic in Go) keeps the map unchanged and is never reached
by the code under verification. -/
def HttpHeader.add (h : HttpHeader) (key value : String) : HttpHeader :=
  match h with
  | .nil => .nil
  | .mk entries =>
    if (entries.lookup key).isSome then
      .mk (entries.map (fun e => if e.1 = key then (e.1, e.2 ++ [value]) else e))
    else
      .mk (entries ++ [(key, [value])])

/-- Opaque handle for a response body stream (`res.Body`); the bytes it
yields are decided by the `Transport` oracle's `readAll`. -/
structure BodyStream where
  id : Nat
deriving DecidableEq, Repr

/-- Opaque transport error (`error` values returned by `http.NewRequest`,
`client.Do` or `ioutil.ReadAll`). -/
structure GoError where
  msg : String
deriving DecidableEq, Repr

/-- An outbound `*http.Request` as this package observes it: method and
URL as given, a header map (always `make`-initialised by
`http.NewRequest`), and the deadline context it was bound to (in
milliseconds), `none` before `WithContext`. -/
structure Request where
  Method : String
  URL : String
  Header : HttpHeader
  Ctx : Option Nat
deriving DecidableEq, Repr

/-- An inbound `*http.Response` as this package observes it: status
code, header map, and the (not yet drained) body stream. -/
structure HttpResponse where
  StatusCode : Nat
  Header : HttpHeader
  BodyStream : BodyStream
deriving DecidableEq, Repr

/-- `ResponseEntity` struct of `src/rest.go`: normalized result of an
exchange. -/
structure ResponseEntity where
  StatusCode : Nat
  Header : HttpHeader
  Body : List UInt8
deriving DecidableEq, Repr

/-- `(*ResponseEntity).BodyString` of `src/rest.go`: the body bytes as a
string (UTF-8 decode left abstract as a byte-to-char map). -/
def ResponseEntity.BodyString (re : ResponseEntity) : List Char :=
  re.Body.map (fun b => Char.ofNat b.toNat)

/-- The external collaborators of `exchange`: the platform HTTP stack
and the network, as oracles.
* `newRequestErr method url` — outcome of `http.NewRequest`: `none` is
  success (Go then hands back a request with a fresh empty header map),
  `some e` is a construction error (malformed URL/method).
* `doResult req` — outcome of `client.Do req`: a response or a
  transport error (connection refused, DNS, TLS, deadline expiry).
* `readAll bs` — outcome of `ioutil.ReadAll` on a response body stream:
  the fully-drained bytes or a read error. -/
structure Transport where
  newRequestErr : String → String → Option GoError
  doResult : Request → Except GoError HttpResponse
  readAll : BodyStream → Except GoError (List UInt8)

/-- `defaultTimeout` of `src/rest.go` (`10 * time.Second`), in
milliseconds. -/
def defaultTimeout : Nat := 10000

/-- `defaultTransportTimeout` of `src/rest.go` (`5 * time.Second`), in
milliseconds. -/
def defaultTransportTimeout : Nat := 5000

/-- `defaultRequestCallback` of `src/rest.go`: adds
`Accept: application/json`, `Content-Type: application/json` and
`Cache-Control: no-cache` to the request, in that order. -/
def defaultRequestCallback (r : Request) : Request :=
  { r with Header := ((r.Header.add "Accept" "application/json").add
      "Content-Type" "application/json").add "Cache-Control" "no-cache" }

/-- `exchange` of `src/rest.go`, lines 63–91, translated step by step:
build a deadline context, construct the request (early return with a
`make`-initialised empty header on failure), bind the context, invoke
the callback when non-nil, dispatch via `client.Do` (early return on
failure), drain the body via `ioutil.ReadAll` (early return on
failure), and return the populated entity with a nil error.  The
`http.Client` argument of the Go function is subsumed by the
`Transport` oracle. -/
def exchange (t : Transport) (timeout : Nat) (url method : String)
    (requestCallback : Option (Request → Request)) :
    ResponseEntity × Option GoError :=
  match t.newRequestErr method url with
  | some err => ({ StatusCode := 0, Header := .mk [], Body := [] }, some err)
  | none =>
    let req : Request := { Method := method, URL := url, Header := .mk [], Ctx := none }
    let req := { req with Ctx := some timeout }
    let req :=
      match requestCallback with
      | some cb => cb req
      | none => req
    match t.doResult req with
    | .error err => ({ StatusCode := 0, Header := .mk [], Body := [] }, some err)
    | .ok res =>
      match t.readAll res.BodyStream with
      | .error err => ({ StatusCode := 0, Header := .mk [], Body := [] }, some err)
      | .ok resBody =>
        ({ StatusCode := res.StatusCode, Header := res.Header, Body := resBody }, none)

/-- Observable events of one `exchange` call, in program order. -/
inductive Event where
  | constructed (req : Request) : Event
  | callbackInvoked (req : Request) : Event
  | dispatched (req : Request) : Event
  | bodyRead (bs : BodyStream) : Event
deriving DecidableEq, Repr

/-- `exchange` instrumented with its event trace: the same translation
of `src/rest.go` lines 63–91, additionally recording, in program order,
the request construction, the callback invocation (with the argument
passed to the callback), the dispatch through the transport (with the
request handed to `client.Do`), and the body drain. -/
def exchangeEvents (t : Transport) (timeout : Nat) (url method : String)
    (requestCallback : Option (Request → Request)) :
    (ResponseEntity × Option GoError) × List Event :=
  match t.newRequestErr method url with
  | some err => (({ StatusCode := 0, Header := .mk [], Body := [] }, some err), [])
  | none =>
    let req₀ : Request := { Method := method, URL := url, Header := .mk [], Ctx := none }
    let req₁ := { req₀ with Ctx := some timeout }
    let cbEvents :=
      match requestCallback with
      | some _ => [Event.callbackInvoked req₁]
      | none => []
    let req₂ :=
      match requestCallback with
      | some cb => cb req₁
      | none => req₁
    let pre := Event.constructed req₀ :: cbEvents ++ [Event.dispatched req₂]
    match t.doResult req₂ with
    | .error err => (({ StatusCode := 0, Header := .mk [], Body := [] }, some err), pre)
    | .ok res =>
      match t.readAll res.BodyStream with
      | .error err =>
        (({ StatusCode := 0, Header := .mk [], Body := [] }, some err),
          pre ++ [Event.bodyRead res.BodyStream])
      | .ok resBody =>
        (({ StatusCode := res.StatusCode, Header := res.Header, Body := resBody }, none),
          pre ++ [Event.bodyRead res.BodyStream])

/-- `Exchange` of `src/rest.go`: `exchange` with the package-level
client and timeout; the client is the `Transport` oracle, the timeout
is `defaultTimeout`. -/
def Exchange (t : Transport) (url method : String)
    (requestCallback : Option (Request → Request)) :
    ResponseEntity × Option GoError :=
  exchange t defaultTimeout url method requestCallback

/-- `Get` of `src/rest.go`. -/
def Get (t : Transport) (url : String) : ResponseEntity × Option GoError :=
  Exchange t url "GET" (some defaultRequestCallback)

/-- `Head` of `src/rest.go`: returns only the entity's header and the
error. -/
def Head (t : Transport) (url : String) : HttpHeader × Option GoError :=
  let p := Exchange t url "HEAD" (some defaultRequestCallback)
  (p.1.Header, p.2)

/-- `Post` of `src/rest.go`.  The request body reader plays no role in
the oracle model (it is consumed inside `client.Do`), so it is not a
parameter. -/
def Post (t : Transport) (url : String) : ResponseEntity × Option GoError :=
  Exchange t url "POST" (some defaultRequestCallback)

/-- `Put` of `src/rest.go`. -/
def Put (t : Transport) (url : String) : ResponseEntity × Option GoError :=
  Exchange t url "PUT" (some defaultRequestCallback)

/-- `Patch` of `src/rest.go`. -/
def Patch (t : Transport) (url : String) : ResponseEntity × Option GoError :=
  Exchange t url "PATCH" (some defaultRequestCallback)

/-- Go `strings.Split (s, ",")` on the character list of `s`: a raw
comma split, no trimming; the empty string splits to `[[]]`, matching
Go's `[""]`. -/
def splitComma : List Char → List (List Char)
  | [] => [[]]
  | c :: rest =>
    if c = ',' then [] :: splitComma rest
    else
      match splitComma rest with
      | tok :: toks => (c :: tok) :: toks
      | [] => [[c]]

/-- `strings.Split (s, ",")` at the `String` level. -/
def goSplitComma (s : String) : List String :=
  (splitComma s.data).map (fun cs => String.mk cs)

/-- `OptionsForAllow` of `src/rest.go`, lines 137–144: OPTIONS
exchange, then a raw comma split of the `Allow` header when non-empty,
else the empty list; the exchange error is returned alongside in both
branches. -/
def OptionsForAllow (t : Transport) (url : String) : List String × Option GoError :=
  let p := Exchange t url "OPTIONS" (some defaultRequestCallback)
  let allowHeader := p.1.Header.get "Allow"
  if 0 < allowHeader.length then (goSplitComma allowHeader, p.2)
  else ([], p.2)

/-- `Delete` of `src/rest.go`, lines 147–150: the entity is discarded,
only the error is returned. -/
def Delete (t : Transport) (url : String) : Option GoError :=
  (Exchange t url "DELETE" (some defaultRequestCallback)).2

/-- Recogniser for callback-invocation events. -/
def Event.isCallbackInvoked : Event → Bool
  | .callbackInvoked _ => true
  | _ => false

/-- Recogniser for dispatch events. -/
def Event.isDispatched : Event → Bool
  | .dispatched _ => true
  | _ => false

/-- A cooperative platform: construction succeeds, the server answers
`200` with `Allow: POST, GET` and a one-byte body. -/
def okAllowTransport : Transport where
  newRequestErr := fun _ _ => none
  doResult := fun _ =>
    .ok { StatusCode := 200, Header := .mk [("Allow", ["POST, GET"])],
          BodyStream := { id := 0 } }
  readAll := fun _ => .ok [123]

/-- A platform where request construction fails (malformed URL). -/
def failNewRequestTransport : Transport where
  newRequestErr := fun _ _ => some { msg := "parse error" }
  doResult := fun _ => .error { msg := "unreachable" }
  readAll := fun _ => .error { msg := "unreachable" }

/-- A platform where construction succeeds and dispatch fails
(connection refused). -/
def failDoTransport : Transport where
  newRequestErr := fun _ _ => none
  doResult := fun _ => .error { msg := "connection refused" }
  readAll := fun _ => .error { msg := "unreachable" }

/-- The zero-value entity with a `make`-initialised empty header, as
built on every error path of `exchange`. -/
def zeroEntity : ResponseEntity :=
  { StatusCode := 0, Header := .mk [], Body := [] }

/-- The request as `http.NewRequest` hands it back: given method and
URL, an empty (`make`-initialised) header map, not yet bound to a
context. -/
def rawRequest (method url : String) : Request :=
  { Method := method, URL := url, Header := .mk [], Ctx := none }

/-- The request after `req.WithContext(ctx)`: `rawRequest` bound to the
deadline context. -/
def boundRequest (method url : String) (timeout : Nat) : Request :=
  { rawRequest method url with Ctx := some timeout }

/-! ## JSON codec model

`EncodeJSON`/`DecodeJSON` (`src/rest.go` lines 94–103) are one-line
wrappers over Go's `encoding/json`, an external collaborator.  The
library is modelled at the shape the claims exercise — a simple
structure with one string field — with Go's string-escaping rules
reproduced faithfully (`encoding/json` escapes `"`, `\`, control
characters, the HTML-sensitive `<` `>` `&`, and U+2028/U+2029; the
decoder accepts the standard JSON escapes including `\uXXXX`). -/

/-- Lowercase hex digit for `n < 16`, as `encoding/json` writes in
`\u00XX` escapes. -/
def hexDigitChar (n : Nat) : Char :=
  if n < 10 then Char.ofNat (48 + n) else Char.ofNat (87 + n)

/-- Go `encoding/json` escaping of one character of a string value
(HTML escaping on, as in the `json.Encoder` used by `EncodeJSON`). -/
def escChar (c : Char) : List Char :=
  if c = '"' then ['\\', '"']
  else if c = '\\' then ['\\', '\\']
  else if c = '\n' then ['\\', 'n']
  else if c = '\r' then ['\\', 'r']
  else if c = '\t' then ['\\', 't']
  else if c.toNat < 0x20 then
    ['\\', 'u', '0', '0', hexDigitChar (c.toNat / 16), hexDigitChar (c.toNat % 16)]
  else if c = '<' then ['\\', 'u', '0', '0', '3', 'c']
  else if c = '>' then ['\\', 'u', '0', '0', '3', 'e']
  else if c = '&' then ['\\', 'u', '0', '0', '2', '6']
  else if c = '\u2028' then ['\\', 'u', '2', '0', '2', '8']
  else if c = '\u2029' then ['\\', 'u', '2', '0', '2', '9']
  else [c]

/-- Go `encoding/json` escaping of a whole string value. -/
def escapeChars : List Char → List Char
  | [] => []
  | c :: cs => escChar c ++ escapeChars cs

/-- Value of a hex digit character, as the decoder's `getu4` reads it. -/
def fromHexDigit (c : Char) : Option Nat :=
  if 48 ≤ c.toNat ∧ c.toNat ≤ 57 then some (c.toNat - 48)
  else if 97 ≤ c.toNat ∧ c.toNat ≤ 102 then some (c.toNat - 87)
  else if 65 ≤ c.toNat ∧ c.toNat ≤ 70 then some (c.toNat - 55)
  else none

/-- The decoder's scan of a JSON string body (after the opening quote):
accumulates decoded characters until the closing quote, resolving
escapes; raw control characters are a syntax error; a `\uXXXX` escape
denoting an unpaired surrogate decodes to U+FFFD, as in Go's
`unquoteBytes`.  Returns the decoded characters and the rest of the
input. -/
def parseStringBody (acc : List Char) : List Char → Option (List Char × List Char)
  | [] => none
  | c :: rest =>
    if c = '"' then some (acc.reverse, rest)
    else if c = '\\' then
      match rest with
      | [] => none
      | e :: rest₁ =>
        if e = '"' then parseStringBody ('"' :: acc) rest₁
        else if e = '\\' then parseStringBody ('\\' :: acc) rest₁
        else if e = '/' then parseStringBody ('/' :: acc) rest₁
        else if e = 'b' then parseStringBody (Char.ofNat 8 :: acc) rest₁
        else if e = 'f' then parseStringBody (Char.ofNat 12 :: acc) rest₁
        else if e = 'n' then parseStringBody ('\n' :: acc) rest₁
        else if e = 'r' then parseStringBody ('\r' :: acc) rest₁
        else if e = 't' then parseStringBody ('\t' :: acc) rest₁
        else if e = 'u' then
          match rest₁ with
          | h₁ :: h₂ :: h₃ :: h₄ :: rest₂ =>
            match fromHexDigit h₁, fromHexDigit h₂, fromHexDigit h₃, fromHexDigit h₄ with
            | some d₁, some d₂, some d₃, some d₄ =>
              let n := ((d₁ * 16 + d₂) * 16 + d₃) * 16 + d₄
              if n.isValidChar then parseStringBody (Char.ofNat n :: acc) rest₂
              else parseStringBody (Char.ofNat 0xFFFD :: acc) rest₂
            | _, _, _, _ => none
          | _ => none
        else none
    else if c.toNat < 0x20 then none
    else parseStringBody (c :: acc) rest

/-- A JSON string literal: opening quote, body, closing quote. -/
def parseJSONString (l : List Char) : Option (List Char × List Char) :=
  match l with
  | c :: rest => if c = '"' then parseStringBody [] rest else none
  | [] => none

/-- The "simple structure with one string field" of the round-trip
claim, as in the repository's own test (`rest_test.go` decodes into
`struct{ SomeProperty string }`). -/
structure OneStringField where
  SomeProperty : String
deriving DecidableEq, Repr

/-- A Go `interface{}` value handed to `EncodeJSON`: either the
one-string-field structure, or a value `encoding/json` cannot marshal
(a channel or function value), on which `Marshal` errors. -/
inductive GoValue where
  | oneStringField (v : OneStringField) : GoValue
  | unsupported (typeName : String) : GoValue
deriving DecidableEq, Repr

/-- `\x7b"SomeProperty":"` — the opening of the marshalled object, up
to and including the value's opening quote. -/
def jsonObjectOpen : List Char :=
  ['\x7b', '"', 'S', 'o', 'm', 'e', 'P', 'r', 'o', 'p', 'e', 'r', 't', 'y', '"', ':', '"']

/-- `"\x7d` — the value's closing quote and the object's closing brace. -/
def jsonObjectClose : List Char := ['"', '\x7d']

/-- Go `json.Marshal` on the modelled values: the one-field structure
marshals to `\x7b"SomeProperty":"<escaped>"\x7d`; unsupported values
error. -/
def marshalJSON : GoValue → Except GoError (List Char)
  | .oneStringField v =>
    .ok (jsonObjectOpen ++ escapeChars v.SomeProperty.data ++ jsonObjectClose)
  | .unsupported typeName =>
    .error { msg := "json: unsupported type: " ++ typeName }

/-- `EncodeJSON` of `src/rest.go`, lines 94–98:
`json.NewEncoder(w).Encode(v)` into a fresh buffer, the error value
dropped on the floor; `Encode` writes the marshalled bytes plus a
trailing newline on success and writes nothing on a marshal error, so
the returned reader yields either `bytes ++ "\n"` or nothing.  The
return type has no error component: serialization failure cannot be
signalled to the caller. -/
def EncodeJSON (v : GoValue) : List Char :=
  match marshalJSON v with
  | .ok bs => bs ++ ['\n']
  | .error _ => []

/-- `DecodeJSON` of `src/rest.go`, lines 101–103:
`json.NewDecoder(bytes.NewReader(b)).Decode(&v)` into the
one-string-field structure.  The decoder reads one JSON object —
opening brace, key string, colon, string value, closing brace — and
stops, ignoring trailing input (such as `Encode`'s newline); a key
other than the struct's field is ignored, leaving the field at its
zero value, as `encoding/json` does for unknown keys. -/
def DecodeJSON (b : List Char) : Except GoError OneStringField :=
  match b with
  | [] => .error { msg := "unexpected end of JSON input" }
  | c :: rest =>
    if c = '\x7b' then
      match parseJSONString rest with
      | none => .error { msg := "invalid character in object key" }
      | some (key, rest₁) =>
        match rest₁ with
        | [] => .error { msg := "unexpected end of JSON input" }
        | c₁ :: rest₂ =>
          if c₁ = ':' then
            match parseJSONString rest₂ with
            | none => .error { msg := "invalid character in string value" }
            | some (value, rest₃) =>
              match rest₃ with
              | [] => .error { msg := "unexpected end of JSON input" }
              | c₂ :: _ =>
                if c₂ = '\x7d' then
                  if key = "SomeProperty".data then
                    .ok { SomeProperty := String.mk value }
                  else
                    .ok { SomeProperty := "" }
                else .error { msg := "invalid character after value" }
          else .error { msg := "invalid character after object key" }
    else .error { msg := "invalid character looking for beginning of value" }

/-- Inverse of a comma split: interpose `','` between the tokens. -/
def joinComma : List (List Char) → List Char
  | [] => []
  | [tok] => tok
  | tok :: toks => tok ++ ',' :: joinComma toks

/-- `splitComma` never yields the empty token list (Go's `strings.Split`
with a non-empty separator returns at least one element). -/
theorem splitComma_ne_nil (cs : List Char) : splitComma cs ≠ [] := by
  cases cs with
  | nil => simp [splitComma]
  | cons c rest =>
    unfold splitComma
    split
    · simp
    · split <;> simp

/-- Unfolding `splitComma` at a leading comma. -/
theorem splitComma_cons_comma (rest : List Char) :
    splitComma (',' :: rest) = [] :: splitComma rest := by
  rw [splitComma, if_pos rfl]

/-- Unfolding `splitComma` at a non-comma head. -/
theorem splitComma_cons_other (c : Char) (rest : List Char) (hc : ¬c = ',') :
    splitComma (c :: rest) =
      match splitComma rest with
      | tok :: toks => (c :: tok) :: toks
      | [] => [[c]] := by
  rw [splitComma, if_neg hc]

/-- `joinComma` of a list headed by the empty token, with a non-empty
tail, is a comma followed by the join of the tail. -/
theorem joinComma_nil_cons (l : List (List Char)) (h : l ≠ []) :
    joinComma ([] :: l) = ',' :: joinComma l := by
  cases l with
  | nil => exact absurd rfl h
  | cons t ts => rfl

/-- Splitting on commas and joining with commas is the identity: the
split loses nothing and trims nothing. -/
theorem joinComma_splitComma (cs : List Char) : joinComma (splitComma cs) = cs := by
  induction cs with
  | nil => rfl
  | cons c rest ih =>
    by_cases hc : c = ','
    · subst hc
      rw [splitComma_cons_comma]
      rw [joinComma_nil_cons _ (splitComma_ne_nil rest), ih]
    · rw [splitComma_cons_other c rest hc]
      cases hsp : splitComma rest with
      | nil => exact absurd hsp (splitComma_ne_nil rest)
      | cons t ts =>
        rw [hsp] at ih
        cases ts with
        | nil =>
          simp only [joinComma] at ih ⊢
          rw [ih]
        | cons t₂ ts₂ =>
          simp only [joinComma, List.cons_append] at ih ⊢
          rw [ih]

/-- No token produced by `splitComma` contains a comma. -/
theorem splitComma_no_comma (cs : List Char) :
    ∀ tok ∈ splitComma cs, ',' ∉ tok := by
  induction cs with
  | nil => intro tok h; simp [splitComma] at h; simp [h]
  | cons c rest ih =>
    intro tok htok
    by_cases hc : c = ','
    · subst hc
      rw [splitComma_cons_comma] at htok
      rcases List.mem_cons.mp htok with h | h
      · simp [h]
      · exact ih tok h
    · rw [splitComma_cons_other c rest hc] at htok
      cases hsp : splitComma rest with
      | nil => exact absurd hsp (splitComma_ne_nil rest)
      | cons t ts =>
        rw [hsp] at htok
        rcases List.mem_cons.mp htok with h | h
        · subst h
          intro hmem
          rcases List.mem_cons.mp hmem with h' | h'
          · exact hc h'.symm
          · exact ih t (by simp [hsp]) h'
        · exact ih tok (by simp [hsp, h])

/-- Reading back a hex digit the encoder wrote gives the digit's
value. -/
theorem fromHexDigit_hexDigitChar (k : Nat) (hk : k < 16) :
    fromHexDigit (hexDigitChar k) = some k := by
  interval_cases k <;> decide

/-- Unfolding `parseStringBody` at a `\u` escape with four pending
characters. -/
theorem parseStringBody_backslash_u (acc : List Char) (h₁ h₂ h₃ h₄ : Char)
    (rest : List Char) :
    parseStringBody acc ('\\' :: 'u' :: h₁ :: h₂ :: h₃ :: h₄ :: rest) =
      match fromHexDigit h₁, fromHexDigit h₂, fromHexDigit h₃, fromHexDigit h₄ with
      | some d₁, some d₂, some d₃, some d₄ =>
        let n := ((d₁ * 16 + d₂) * 16 + d₃) * 16 + d₄
        if n.isValidChar then parseStringBody (Char.ofNat n :: acc) rest
        else parseStringBody (Char.ofNat 0xFFFD :: acc) rest
      | _, _, _, _ => none := rfl

/-- Unfolding `parseStringBody` at an unescaped non-quote, non-control
character: the scanner consumes it verbatim. -/
theorem parseStringBody_plain (acc : List Char) (c : Char) (rest : List Char)
    (h1 : ¬c = '"') (h2 : ¬c = '\\') (h3 : ¬c.toNat < 0x20) :
    parseStringBody acc (c :: rest) = parseStringBody (c :: acc) rest := by
  rw [parseStringBody.eq_def]
  dsimp only
  rw [if_neg h1, if_neg h2, if_neg h3]

/-- Scanning the encoder's escape of one character yields exactly that
character: `parseStringBody` over `escChar c ++ rest` consumes the
escape and accumulates `c`. -/
theorem parseStringBody_escChar (c : Char) (acc rest : List Char) :
    parseStringBody acc (escChar c ++ rest) = parseStringBody (c :: acc) rest := by
  by_cases h1 : c = '"'
  · subst h1
    rw [show escChar '"' = ['\\', '"'] from by decide]
    simp only [List.cons_append, List.nil_append]
    rw [parseStringBody.eq_def]
    simp
  by_cases h2 : c = '\\'
  · subst h2
    rw [show escChar '\\' = ['\\', '\\'] from by decide]
    simp only [List.cons_append, List.nil_append]
    rw [parseStringBody.eq_def]
    simp
  by_cases h3 : c = '\n'
  · subst h3
    rw [show escChar '\n' = ['\\', 'n'] from by decide]
    simp only [List.cons_append, List.nil_append]
    rw [parseStringBody.eq_def]
    simp
  by_cases h4 : c = '\r'
  · subst h4
    rw [show escChar '\r' = ['\\', 'r'] from by decide]
    simp only [List.cons_append, List.nil_append]
    rw [parseStringBody.eq_def]
    simp
  by_cases h5 : c = '\t'
  · subst h5
    rw [show escChar '\t' = ['\\', 't'] from by decide]
    simp only [List.cons_append, List.nil_append]
    rw [parseStringBody.eq_def]
    simp
  by_cases h6 : c.toNat < 0x20
  · have hesc : escChar c =
        ['\\', 'u', '0', '0', hexDigitChar (c.toNat / 16), hexDigitChar (c.toNat % 16)] := by
      rw [escChar, if_neg h1, if_neg h2, if_neg h3, if_neg h4, if_neg h5, if_pos h6]
    have hq : c.toNat / 16 < 16 := by omega
    have hr16 : c.toNat % 16 < 16 := Nat.mod_lt _ (by norm_num)
    rw [hesc]
    simp only [List.cons_append, List.nil_append]
    rw [parseStringBody_backslash_u,
      fromHexDigit_hexDigitChar _ hq, fromHexDigit_hexDigitChar _ hr16,
      show fromHexDigit '0' = some 0 from by decide]
    have hv : Nat.isValidChar c.toNat := c.valid
    have hn : ((((0 : Nat) * 16 + 0) * 16 + c.toNat / 16) * 16 + c.toNat % 16) = c.toNat := by
      omega
    dsimp only
    rw [hn, if_pos hv, Char.ofNat_toNat]
  by_cases h7 : c = '<'
  · subst h7
    rw [show escChar '<' = ['\\', 'u', '0', '0', '3', 'c'] from by decide]
    simp only [List.cons_append, List.nil_append]
    rw [parseStringBody.eq_def]
    simp [fromHexDigit]
  by_cases h8 : c = '>'
  · subst h8
    rw [show escChar '>' = ['\\', 'u', '0', '0', '3', 'e'] from by decide]
    simp only [List.cons_append, List.nil_append]
    rw [parseStringBody.eq_def]
    simp [fromHexDigit]
  by_cases h9 : c = '&'
  · subst h9
    rw [show escChar '&' = ['\\', 'u', '0', '0', '2', '6'] from by decide]
    simp only [List.cons_append, List.nil_append]
    rw [parseStringBody.eq_def]
    simp [fromHexDigit]
  by_cases h10 : c = '\u2028'
  · subst h10
    rw [show escChar '\u2028' = ['\\', 'u', '2', '0', '2', '8'] from by decide]
    simp only [List.cons_append, List.nil_append]
    rw [parseStringBody.eq_def]
    simp [fromHexDigit]
  by_cases h11 : c = '\u2029'
  · subst h11
    rw [show escChar '\u2029' = ['\\', 'u', '2', '0', '2', '9'] from by decide]
    simp only [List.cons_append, List.nil_append]
    rw [parseStringBody.eq_def]
    simp [fromHexDigit]
  · have hesc : escChar c = [c] := by
      rw [escChar, if_neg h1, if_neg h2, if_neg h3, if_neg h4, if_neg h5, if_neg h6,
        if_neg h7, if_neg h8, if_neg h9, if_neg h10, if_neg h11]
    rw [hesc, List.cons_append, List.nil_append]
    exact parseStringBody_plain acc c rest h1 h2 h6

/-- Scanning the encoder's escaping of a whole string, followed by the
closing quote, returns the original characters (appended to the
reversed accumulator) and the input after the quote. -/
theorem parseStringBody_escapeChars (s : List Char) :
    ∀ acc rest, parseStringBody acc (escapeChars s ++ '"' :: rest) =
      some (acc.reverse ++ s, rest) := by
  induction s with
  | nil =>
    intro acc rest
    rw [escapeChars, List.nil_append, parseStringBody.eq_def]
    dsimp only
    rw [if_pos rfl, List.append_nil]
  | cons c cs ih =>
    intro acc rest
    rw [escapeChars, List.append_assoc, parseStringBody_escChar, ih,
      List.reverse_cons, List.append_assoc, List.singleton_append]

/-- The result and the trace of `exchangeEvents` agree with
`exchange`: the instrumentation changes nothing observable. -/
theorem exchangeEvents_fst (t : Transport) (timeout : Nat) (url method : String)
    (cb : Option (Request → Request)) :
    (exchangeEvents t timeout url method cb).1 = exchange t timeout url method cb := by
  unfold exchangeEvents exchange
  dsimp only
  repeat' split
  all_goals rfl

/-- C1: every `exchange` call returns an entity with a non-nil header
mapping, and yields exactly one outcome: a nil error together with an
entity populated from the wire response (status, headers, fully-read
body), or a non-nil error together with the zero-status, empty-body,
empty-but-non-nil-header entity — never both.  The hypothesis is the
`net/http` guarantee that a successful `client.Do` returns a response
with a non-nil header map. -/
theorem exchange_single_outcome (t : Transport) (timeout : Nat) (url method : String)
    (cb : Option (Request → Request))
    (hres : ∀ req res, t.doResult req = .ok res → res.Header ≠ HttpHeader.nil) :
    (exchange t timeout url method cb).1.Header ≠ HttpHeader.nil ∧
      (((exchange t timeout url method cb).2 = none ∧
          ∃ req res resBody, t.doResult req = .ok res ∧
            t.readAll res.BodyStream = .ok resBody ∧
            (exchange t timeout url method cb).1 =
              { StatusCode := res.StatusCode, Header := res.Header, Body := resBody }) ∨
        ((exchange t timeout url method cb).2 ≠ none ∧
          (exchange t timeout url method cb).1 =
            { StatusCode := 0, Header := HttpHeader.mk [], Body := [] })) := by
  unfold exchange
  split
  · exact ⟨by simp, Or.inr ⟨by simp, rfl⟩⟩
  · dsimp only
    split
    · exact ⟨by simp, Or.inr ⟨by simp, rfl⟩⟩
    · next res hd =>
      split
      · exact ⟨by simp, Or.inr ⟨by simp, rfl⟩⟩
      · next b hr =>
        exact ⟨hres _ res hd, Or.inl ⟨rfl, _, res, b, hd, hr, rfl⟩⟩

/-- C1 witness: the invariant at a concrete cooperative platform. -/
theorem exchange_single_outcome_witness :
    (exchange okAllowTransport 10000 "http://e.com" "GET" none).1.Header ≠ HttpHeader.nil ∧
      (((exchange okAllowTransport 10000 "http://e.com" "GET" none).2 = none ∧
          ∃ req res resBody, okAllowTransport.doResult req = .ok res ∧
            okAllowTransport.readAll res.BodyStream = .ok resBody ∧
            (exchange okAllowTransport 10000 "http://e.com" "GET" none).1 =
              { StatusCode := res.StatusCode, Header := res.Header, Body := resBody }) ∨
        (((exchange okAllowTransport 10000 "http://e.com" "GET" none).2 ≠ none) ∧
          (exchange okAllowTransport 10000 "http://e.com" "GET" none).1 =
            { StatusCode := 0, Header := HttpHeader.mk [], Body := [] })) :=
  exchange_single_outcome okAllowTransport 10000 "http://e.com" "GET" none
    (fun req res h => by
      simp only [okAllowTransport, Except.ok.injEq] at h
      subst h
      simp)

/-- C2: when request construction succeeds and a non-nil callback `f`
is supplied, the event trace begins with construction, then exactly one
callback invocation — whose argument is the context-bound constructed
request — then the dispatch of the callback's result; with a nil
callback no invocation happens and the exchange still dispatches
exactly once. -/
theorem exchange_callback_contract (t : Transport) (timeout : Nat) (url method : String)
    (f : Request → Request) (hok : t.newRequestErr method url = none) :
    (((exchangeEvents t timeout url method (some f)).2.take 3 =
        [Event.constructed (rawRequest method url),
         Event.callbackInvoked (boundRequest method url timeout),
         Event.dispatched (f (boundRequest method url timeout))] ∧
      (exchangeEvents t timeout url method (some f)).2.countP Event.isCallbackInvoked = 1 ∧
      (boundRequest method url timeout).Ctx = some timeout)) ∧
    ((exchangeEvents t timeout url method none).2.countP Event.isCallbackInvoked = 0 ∧
      (exchangeEvents t timeout url method none).2.countP Event.isDispatched = 1) := by
  refine ⟨⟨?_, ?_, rfl⟩, ?_, ?_⟩ <;>
  · unfold exchangeEvents
    rw [hok]
    dsimp only
    repeat' split
    all_goals
      simp [rawRequest, boundRequest, List.countP_cons,
        Event.isCallbackInvoked, Event.isDispatched]

/-- C2 witness: the callback contract at a concrete platform and the
default JSON callback. -/
theorem exchange_callback_contract_witness :
    (((exchangeEvents okAllowTransport 10000 "http://e.com" "GET"
          (some defaultRequestCallback)).2.take 3 =
        [Event.constructed (rawRequest "GET" "http://e.com"),
         Event.callbackInvoked (boundRequest "GET" "http://e.com" 10000),
         Event.dispatched (defaultRequestCallback (boundRequest "GET" "http://e.com" 10000))] ∧
      (exchangeEvents okAllowTransport 10000 "http://e.com" "GET"
          (some defaultRequestCallback)).2.countP Event.isCallbackInvoked = 1 ∧
      (boundRequest "GET" "http://e.com" 10000).Ctx = some 10000)) ∧
    ((exchangeEvents okAllowTransport 10000 "http://e.com" "GET" none).2.countP
        Event.isCallbackInvoked = 0 ∧
      (exchangeEvents okAllowTransport 10000 "http://e.com" "GET" none).2.countP
        Event.isDispatched = 1) :=
  exchange_callback_contract okAllowTransport 10000 "http://e.com" "GET"
    defaultRequestCallback rfl

/-- C5: when request construction fails with error `e`, `exchange`
returns immediately the zero-value entity — zero status, empty body,
empty but non-nil header mapping — paired with `e`, and the transport
is never invoked: the event trace is empty, in particular it contains
no dispatch. -/
theorem exchange_construction_error (t : Transport) (timeout : Nat) (url method : String)
    (cb : Option (Request → Request)) (e : GoError)
    (h : t.newRequestErr method url = some e) :
    exchange t timeout url method cb = (zeroEntity, some e) ∧
      zeroEntity.StatusCode = 0 ∧ zeroEntity.Body = [] ∧
      zeroEntity.Header = HttpHeader.mk [] ∧ zeroEntity.Header ≠ HttpHeader.nil ∧
      (exchangeEvents t timeout url method cb).2 = [] ∧
      ∀ r, Event.dispatched r ∉ (exchangeEvents t timeout url method cb).2 := by
  unfold exchange exchangeEvents
  rw [h]
  exact ⟨rfl, rfl, rfl, rfl, by decide, rfl, by simp⟩

/-- C5 witness: a malformed URL at a concrete failing platform. -/
theorem exchange_construction_error_witness :
    exchange failNewRequestTransport 10000 "ht tp://bad url" "GET" none =
        (zeroEntity, some { msg := "parse error" }) ∧
      zeroEntity.StatusCode = 0 ∧ zeroEntity.Body = [] ∧
      zeroEntity.Header = HttpHeader.mk [] ∧ zeroEntity.Header ≠ HttpHeader.nil ∧
      (exchangeEvents failNewRequestTransport 10000 "ht tp://bad url" "GET" none).2 = [] ∧
      ∀ r, Event.dispatched r ∉
        (exchangeEvents failNewRequestTransport 10000 "ht tp://bad url" "GET" none).2 :=
  exchange_construction_error failNewRequestTransport 10000 "ht tp://bad url" "GET" none
    { msg := "parse error" } rfl

/-- C9: `EncodeJSON` is total and never surfaces a serialization
failure: its return type carries no error, and when marshalling fails
the error is discarded and the returned stream is empty, while on
success the stream is the marshalled bytes plus `Encode`'s trailing
newline. -/
theorem EncodeJSON_silent_failure (v : GoValue) :
    (∀ e, marshalJSON v = .error e → EncodeJSON v = []) ∧
    (∀ bs, marshalJSON v = .ok bs → EncodeJSON v = bs ++ ['\n']) := by
  constructor
  · intro e he
    unfold EncodeJSON
    rw [he]
  · intro bs h
    unfold EncodeJSON
    rw [h]

/-- C9 witness: an unmarshalable value (a channel) produces the empty
stream and no error signal. -/
theorem EncodeJSON_silent_failure_witness :
    EncodeJSON (GoValue.unsupported "chan int") = [] :=
  (EncodeJSON_silent_failure (GoValue.unsupported "chan int")).1
    { msg := "json: unsupported type: chan int" } rfl

/-- C8: encoding a one-string-field structure with `EncodeJSON` and
decoding the produced bytes with `DecodeJSON` returns the original
field value unchanged, with no error, for every string value. -/
theorem EncodeJSON_DecodeJSON_roundtrip (s : String) :
    DecodeJSON (EncodeJSON (GoValue.oneStringField { SomeProperty := s })) =
      .ok { SomeProperty := s } := by
  have henc : EncodeJSON (GoValue.oneStringField { SomeProperty := s }) =
      '\x7b' :: '"' :: (['S', 'o', 'm', 'e', 'P', 'r', 'o', 'p', 'e', 'r', 't', 'y'] ++
        '"' :: ':' :: '"' :: (escapeChars s.data ++ '"' :: ['\x7d', '\n'])) := by
    show (jsonObjectOpen ++ escapeChars s.data ++ jsonObjectClose) ++ ['\n'] = _
    simp [jsonObjectOpen, jsonObjectClose]
  rw [henc, DecodeJSON.eq_def]
  dsimp only
  rw [if_pos rfl]
  have hpk : parseJSONString ('"' ::
        (['S', 'o', 'm', 'e', 'P', 'r', 'o', 'p', 'e', 'r', 't', 'y'] ++
          '"' :: ':' :: '"' :: (escapeChars s.data ++ '"' :: ['\x7d', '\n']))) =
      some (['S', 'o', 'm', 'e', 'P', 'r', 'o', 'p', 'e', 'r', 't', 'y'],
        ':' :: '"' :: (escapeChars s.data ++ '"' :: ['\x7d', '\n'])) := by
    rw [parseJSONString]
    rw [if_pos rfl]
    conv_lhs => rw [show (['S', 'o', 'm', 'e', 'P', 'r', 'o', 'p', 'e', 'r', 't', 'y'] :
        List Char) = escapeChars ['S', 'o', 'm', 'e', 'P', 'r', 'o', 'p', 'e', 'r', 't', 'y']
      from by decide]
    rw [parseStringBody_escapeChars]
    simp
  rw [hpk]
  dsimp only
  rw [if_pos rfl]
  have hpv : parseJSONString ('"' :: (escapeChars s.data ++ '"' :: ['\x7d', '\n'])) =
      some (s.data, ['\x7d', '\n']) := by
    rw [parseJSONString]
    rw [if_pos rfl, parseStringBody_escapeChars]
    simp
  rw [hpv]
  dsimp only
  rw [if_pos rfl,
    if_pos (show (['S', 'o', 'm', 'e', 'P', 'r', 'o', 'p', 'e', 'r', 't', 'y'] : List Char) =
      "SomeProperty".data from by decide)]

/-- On every error path of `exchange` the returned entity is the
zero-value entity with a `make`-initialised empty header. -/
theorem exchange_error_entity (t : Transport) (timeout : Nat) (url method : String)
    (cb : Option (Request → Request)) (e : GoError)
    (h : (exchange t timeout url method cb).2 = some e) :
    (exchange t timeout url method cb).1 = zeroEntity := by
  revert h
  unfold exchange
  split
  · intro h
    rfl
  · dsimp only
    split
    · intro h
      rfl
    · split
      · intro h
        rfl
      · intro h
        exact absurd h (by simp)

/-- When construction succeeds and the platform answers every request
with a response whose body drains successfully, `exchange` returns a
nil error — whatever the response's status code is. -/
theorem exchange_ok_of_responsive (t : Transport) (timeout : Nat) (url method : String)
    (cb : Option (Request → Request))
    (h1 : t.newRequestErr method url = none)
    (h2 : ∀ req, ∃ res, t.doResult req = .ok res ∧ ∃ b, t.readAll res.BodyStream = .ok b) :
    (exchange t timeout url method cb).2 = none := by
  unfold exchange
  rw [h1]
  dsimp only
  split
  · next err heq =>
    obtain ⟨res, hres, b, hb⟩ := h2 _
    rw [heq] at hres
    simp at hres
  · next res heq =>
    split
    · next err heq2 =>
      obtain ⟨res2, hres2, b, hb⟩ := h2 _
      rw [heq] at hres2
      injection hres2 with hres_eq
      subst hres_eq
      rw [hb] at heq2
      simp at heq2
    · rfl

/-- C4: `OptionsForAllow` returns the exchange's error unchanged
alongside the derived list, and when the exchange fails the result is
the empty list together with that non-nil error. -/
theorem OptionsForAllow_error_passthrough (t : Transport) (url : String) :
    (OptionsForAllow t url).2 = (Exchange t url "OPTIONS" (some defaultRequestCallback)).2 ∧
    (∀ e, (Exchange t url "OPTIONS" (some defaultRequestCallback)).2 = some e →
      OptionsForAllow t url = ([], some e)) := by
  constructor
  · unfold OptionsForAllow
    dsimp only
    split <;> rfl
  · intro e he
    have hz : (Exchange t url "OPTIONS" (some defaultRequestCallback)).1 = zeroEntity :=
      exchange_error_entity t defaultTimeout url "OPTIONS" (some defaultRequestCallback) e he
    unfold OptionsForAllow
    dsimp only
    rw [hz, he]
    simp [zeroEntity, HttpHeader.get]

/-- C4 witness: a refused connection is surfaced next to the empty
list. -/
theorem OptionsForAllow_error_passthrough_witness :
    OptionsForAllow failDoTransport "http://e.com" =
      ([], some { msg := "connection refused" }) :=
  (OptionsForAllow_error_passthrough failDoTransport "http://e.com").2
    { msg := "connection refused" } rfl

/-- C3: `OptionsForAllow` returns the raw comma split of a non-empty
`Allow` header — the tokens joined with commas restore the header
exactly and no token contains a comma, so no whitespace is trimmed —
and the empty list when the header is absent or empty, the exchange
error passed through either way. -/
theorem OptionsForAllow_comma_split (t : Transport) (url : String) :
    (OptionsForAllow t url).2 = (Exchange t url "OPTIONS" (some defaultRequestCallback)).2 ∧
    ((Exchange t url "OPTIONS" (some defaultRequestCallback)).1.Header.get "Allow" = "" →
      (OptionsForAllow t url).1 = []) ∧
    (∀ a, (Exchange t url "OPTIONS" (some defaultRequestCallback)).1.Header.get "Allow" = a →
      a ≠ "" →
      (OptionsForAllow t url).1 = goSplitComma a ∧
        joinComma (splitComma a.data) = a.data ∧
        ∀ tok ∈ splitComma a.data, ',' ∉ tok) := by
  refine ⟨?_, ?_, ?_⟩
  · unfold OptionsForAllow
    dsimp only
    split <;> rfl
  · intro h0
    unfold OptionsForAllow
    dsimp only
    rw [h0]
    simp
  · intro a ha hne
    refine ⟨?_, joinComma_splitComma a.data, splitComma_no_comma a.data⟩
    have hlen : 0 < a.length := by
      cases a with
      | mk data =>
        cases data with
        | nil => exact absurd rfl hne
        | cons c cs => simp [String.length]
    unfold OptionsForAllow
    dsimp only
    rw [ha, if_pos hlen]

/-- C3 witness: `Allow: POST, GET` splits into `["POST", " GET"]`, the
second token keeping its leading space. -/
theorem OptionsForAllow_comma_split_witness :
    ("POST, GET" : String) ≠ "" ∧
    OptionsForAllow okAllowTransport "http://e.com" = (["POST", " GET"], none) := by
  constructor
  · decide
  · have h := (OptionsForAllow_comma_split okAllowTransport "http://e.com").2.2
      "POST, GET" (by decide) (by decide)
    have h2 := (OptionsForAllow_comma_split okAllowTransport "http://e.com").1
    rw [show OptionsForAllow okAllowTransport "http://e.com" =
      ((OptionsForAllow okAllowTransport "http://e.com").1,
        (OptionsForAllow okAllowTransport "http://e.com").2) from rfl, h.1, h2]
    decide

/-- C6: `Delete` discards the entity and returns only the exchange's
error; that error is nil whenever the platform delivers a well-formed
response — regardless of its status code — and a non-nil error can only
originate in request construction, transport dispatch, or body
draining, never in the status code. -/
theorem Delete_error_only (t : Transport) (url : String) :
    Delete t url = (Exchange t url "DELETE" (some defaultRequestCallback)).2 ∧
    ((t.newRequestErr "DELETE" url = none ∧
        ∀ req, ∃ res, t.doResult req = .ok res ∧ ∃ b, t.readAll res.BodyStream = .ok b) →
      Delete t url = none) ∧
    (∀ e, Delete t url = some e →
      t.newRequestErr "DELETE" url = some e ∨ (∃ req, t.doResult req = .error e) ∨
        ∃ bs, t.readAll bs = .error e) := by
  refine ⟨rfl, ?_, ?_⟩
  · rintro ⟨h1, h2⟩
    exact exchange_ok_of_responsive t defaultTimeout url "DELETE"
      (some defaultRequestCallback) h1 h2
  · intro e he
    revert he
    unfold Delete Exchange exchange
    dsimp only
    split
    · next err heq =>
      intro he
      injection he with h
      subst h
      exact Or.inl heq
    · split
      · next err heq =>
        intro he
        injection he with h
        subst h
        exact Or.inr (Or.inl ⟨_, heq⟩)
      · next res heq =>
        split
        · next err heq2 =>
          intro he
          injection he with h
          subst h
          exact Or.inr (Or.inr ⟨_, heq2⟩)
        · intro he
          exact absurd he (by simp)

/-- C6 witness: a well-formed `200` response yields a nil error from
`Delete`. -/
theorem Delete_error_only_witness : Delete okAllowTransport "http://e.com" = none :=
  (Delete_error_only okAllowTransport "http://e.com").2.1
    ⟨rfl, fun _ => ⟨_, rfl, [123], rfl⟩⟩

/-- C7: `Head` returns exactly the exchange entity's header mapping and
error; the status code and the drained body bytes — both universally
quantified here — do not appear in the result. -/
theorem Head_discards_body_and_status (t : Transport) (url : String)
    (res : HttpResponse) (b : List UInt8)
    (h1 : t.newRequestErr "HEAD" url = none)
    (h2 : t.doResult (defaultRequestCallback (boundRequest "HEAD" url defaultTimeout)) = .ok res)
    (h3 : t.readAll res.BodyStream = .ok b) :
    Head t url = (res.Header, none) ∧
    Head t url = ((Exchange t url "HEAD" (some defaultRequestCallback)).1.Header,
      (Exchange t url "HEAD" (some defaultRequestCallback)).2) := by
  refine ⟨?_, rfl⟩
  simp only [boundRequest, rawRequest] at h2
  unfold Head Exchange exchange
  rw [h1]
  dsimp only
  rw [h2]
  dsimp only
  rw [h3]

/-- C7 witness: the headers come through, the body does not. -/
theorem Head_discards_body_and_status_witness :
    Head okAllowTransport "http://e.com" =
      (HttpHeader.mk [("Allow", ["POST, GET"])], none) :=
  (Head_discards_body_and_status okAllowTransport "http://e.com"
    { StatusCode := 200, Header := .mk [("Allow", ["POST, GET"])],
      BodyStream := { id := 0 } }
    [123] rfl rfl rfl).1

/-- The three headers added by `defaultRequestCallback` on a fresh
(empty-header) request are retrievable afterwards. -/
theorem defaultRequestCallback_headers (r : Request) (h : r.Header = HttpHeader.mk []) :
    (defaultRequestCallback r).Header.get "Accept" = "application/json" ∧
    (defaultRequestCallback r).Header.get "Content-Type" = "application/json" ∧
    (defaultRequestCallback r).Header.get "Cache-Control" = "no-cache" := by
  dsimp only [defaultRequestCallback]
  rw [h]
  refine ⟨?_, ?_, ?_⟩ <;> decide

/-- Every request `exchange` dispatches under a callback `f` is `f`
applied to the context-bound constructed request. -/
theorem exchangeEvents_dispatched_eq (t : Transport) (timeout : Nat) (url method : String)
    (f : Request → Request) (r : Request)
    (hok : t.newRequestErr method url = none)
    (hr : Event.dispatched r ∈ (exchangeEvents t timeout url method (some f)).2) :
    r = f (boundRequest method url timeout) := by
  unfold exchangeEvents at hr
  rw [hok] at hr
  dsimp only at hr
  split at hr
  · simp at hr
    simpa [boundRequest, rawRequest] using hr
  · split at hr
    · simp at hr
      simpa [boundRequest, rawRequest] using hr
    · simp at hr
      simpa [boundRequest, rawRequest] using hr

/-- C10: each verb convenience forwards to `Exchange` with the fixed
`defaultRequestCallback` — the caller cannot omit or replace it — and
therefore every request dispatched by a verb's exchange carries
`Accept: application/json`, `Content-Type: application/json` and
`Cache-Control: no-cache`. -/
theorem verbs_use_default_callback (t : Transport) (url : String)
    (hok : ∀ method, t.newRequestErr method url = none) :
    (Get t url = Exchange t url "GET" (some defaultRequestCallback) ∧
      Post t url = Exchange t url "POST" (some defaultRequestCallback) ∧
      Put t url = Exchange t url "PUT" (some defaultRequestCallback) ∧
      Patch t url = Exchange t url "PATCH" (some defaultRequestCallback) ∧
      Head t url = ((Exchange t url "HEAD" (some defaultRequestCallback)).1.Header,
        (Exchange t url "HEAD" (some defaultRequestCallback)).2) ∧
      Delete t url = (Exchange t url "DELETE" (some defaultRequestCallback)).2 ∧
      (OptionsForAllow t url).2 =
        (Exchange t url "OPTIONS" (some defaultRequestCallback)).2) ∧
    (∀ method r, Event.dispatched r ∈
        (exchangeEvents t defaultTimeout url method (some defaultRequestCallback)).2 →
      r.Header.get "Accept" = "application/json" ∧
      r.Header.get "Content-Type" = "application/json" ∧
      r.Header.get "Cache-Control" = "no-cache") := by
  constructor
  · refine ⟨rfl, rfl, rfl, rfl, rfl, rfl, ?_⟩
    unfold OptionsForAllow
    dsimp only
    split <;> rfl
  · intro method r hr
    have hreq := exchangeEvents_dispatched_eq t defaultTimeout url method
      defaultRequestCallback r (hok method) hr
    subst hreq
    exact defaultRequestCallback_headers (boundRequest method url defaultTimeout) rfl

/-- C10 witness: the verb projections and the three default headers at
a concrete platform. -/
theorem verbs_use_default_callback_witness :
    (Get okAllowTransport "http://e.com" =
        Exchange okAllowTransport "http://e.com" "GET" (some defaultRequestCallback) ∧
      Post okAllowTransport "http://e.com" =
        Exchange okAllowTransport "http://e.com" "POST" (some defaultRequestCallback) ∧
      Put okAllowTransport "http://e.com" =
        Exchange okAllowTransport "http://e.com" "PUT" (some defaultRequestCallback) ∧
      Patch okAllowTransport "http://e.com" =
        Exchange okAllowTransport "http://e.com" "PATCH" (some defaultRequestCallback) ∧
      Head okAllowTransport "http://e.com" =
        ((Exchange okAllowTransport "http://e.com" "HEAD"
            (some defaultRequestCallback)).1.Header,
          (Exchange okAllowTransport "http://e.com" "HEAD"
            (some defaultRequestCallback)).2) ∧
      Delete okAllowTransport "http://e.com" =
        (Exchange okAllowTransport "http://e.com" "DELETE"
          (some defaultRequestCallback)).2 ∧
      (OptionsForAllow okAllowTransport "http://e.com").2 =
        (Exchange okAllowTransport "http://e.com" "OPTIONS"
          (some defaultRequestCallback)).2) ∧
    (∀ method r, Event.dispatched r ∈
        (exchangeEvents okAllowTransport defaultTimeout "http://e.com" method
          (some defaultRequestCallback)).2 →
      r.Header.get "Accept" = "application/json" ∧
      r.Header.get "Content-Type" = "application/json" ∧
      r.Header.get "Cache-Control" = "no-cache") :=
  verbs_use_default_callback okAllowTransport "http://e.com" (fun _ => rfl)

/-- C8 witness: the round trip at a concrete field value. -/
theorem EncodeJSON_DecodeJSON_roundtrip_witness :
    DecodeJSON (EncodeJSON (GoValue.oneStringField { SomeProperty := "someValue" })) =
      .ok { SomeProperty := "someValue" } :=
  EncodeJSON_DecodeJSON_roundtrip "someValue"

end Rest
